import Mathlib

/-!
Shallow embedding of the ESG portfolio-recommendation core of the
repository (views/investment_portfolio_page.py and
api/yahoo_finance_repository.py).  Python numbers are modelled as
rationals, Python dictionaries as structures with optional fields, the
two external collaborators (the Newton analytics engine and the Yahoo
Finance data source) as explicit function-valued parameters, and a
raised Python exception as the error branch of an Except value.  A
candidate portfolio record from the analytics collaborator is a list of
rationals; the source indexes it with p[0] and p[-1], which the
embedding totalises with headD and getLastD (the collaborator contract
makes every record nonempty, of length N + 2).
-/

namespace ESG

/-- Error taxonomy of the design: a raised ValueError or KeyError on
caller input is modelled as invalidInput. -/
inductive Err where
  | invalidInput (msg : String)
deriving Repr, DecidableEq

/-- A company dictionary: created with ticker and name, the remaining
fields attached later by enrichment and scoring. -/
structure Company where
  ticker : String
  name : String
  e_score : Option ℚ := none
  s_score : Option ℚ := none
  g_score : Option ℚ := none
  controversies : Option ℚ := none
  sector : Option String := none
  score : Option ℚ := none
deriving Repr, DecidableEq

/-- The dictionary returned by get_portfolio_recommendation on success. -/
structure RecommendedPortfolio where
  tickers : List String
  proportions : List ℚ
  risk : ℚ
  ret : ℚ
  companies : List Company
deriving Repr, DecidableEq

/-- The deterministic analytics collaborator: the list of candidate
portfolio records (result data) returned for a submitted ticker list. -/
abbrev Engine : Type := List String → List (List ℚ)

/-- Python p[0]: the expected return of a candidate record. -/
def key0 (p : List ℚ) : ℚ := p.headD 0

/-- Python p[-1]: the risk of a candidate record. -/
def lastRisk (p : List ℚ) : ℚ := p.getLastD 0

/-- One insertion step of a stable descending sort on the first element,
modelling Python sorted(..., key=c[0], reverse=True). -/
def insertDesc (p : List ℚ) : List (List ℚ) → List (List ℚ)
  | [] => [p]
  | q :: qs => if key0 p < key0 q then q :: insertDesc p qs else p :: q :: qs

/-- Stable descending sort on the first element of each record. -/
def sortDesc (ps : List (List ℚ)) : List (List ℚ) := ps.foldr insertDesc []

/-- Lines 156-159 plus the pick at line 164: filter the records whose
risk is within the tolerance, sort descending on expected return and
take the head. -/
def bestCandidate (risk_tolerance : ℚ) (data : List (List ℚ)) : Option (List ℚ) :=
  (sortDesc (data.filter (fun p => lastRisk p ≤ risk_tolerance))).head?

/-- Python slice companies[i : i + portfolio_size]. -/
def windowAt (companies : List Company) (portfolio_size i : ℕ) : List Company :=
  (companies.drop i).take portfolio_size

/-- The ticker sequence extracted from the window at offset i. -/
def tickersAt (companies : List Company) (portfolio_size i : ℕ) : List String :=
  (windowAt companies portfolio_size i).map Company.ticker

/-- The body of one loop iteration of get_portfolio_recommendation
(lines 146-167): query the engine on the window's tickers, keep the
risk-compliant records, pick the highest-return one, and succeed when
its return is strictly positive. -/
def windowPortfolio (engine : Engine) (companies : List Company)
    (portfolio_size : ℕ) (risk_tolerance : ℚ) (i : ℕ) : Option RecommendedPortfolio :=
  let tickers := tickersAt companies portfolio_size i
  let result := engine tickers
  match bestCandidate risk_tolerance result with
  | some target_portfolio =>
    if 0 < key0 target_portfolio then
      some { tickers := tickers,
             proportions := (target_portfolio.drop 1).take portfolio_size,
             risk := lastRisk target_portfolio,
             ret := key0 target_portfolio,
             companies := windowAt companies portfolio_size i }
    else none
  | none => none

/-- Number of iterations of the Python loop for i in
range(len(companies) - portfolio_size + 1): over the integers, truncated
to zero when negative. -/
def numWindows (len portfolio_size : ℕ) : ℕ := ((len : ℤ) - portfolio_size + 1).toNat

/-- The loop of get_portfolio_recommendation, by remaining iteration
count: at offset i, return the window's portfolio if feasible, else move
to offset i + 1. -/
def selectGo (engine : Engine) (companies : List Company) (portfolio_size : ℕ)
    (risk_tolerance : ℚ) : ℕ → ℕ → Option RecommendedPortfolio
  | 0, _ => none
  | fuel + 1, i =>
    match windowPortfolio engine companies portfolio_size risk_tolerance i with
    | some rp => some rp
    | none => selectGo engine companies portfolio_size risk_tolerance fuel (i + 1)

/-- Lines 142-169: the sliding-window selector.  Returns none where the
source returns None. -/
def get_portfolio_recommendation (engine : Engine) (companies : List Company)
    (portfolio_size : ℕ) (risk_tolerance : ℚ) : Option RecommendedPortfolio :=
  selectGo engine companies portfolio_size risk_tolerance
    (numWindows companies.length portfolio_size) 0

/-- The loop again, instrumented to also return the ticker lists
submitted to the analytics collaborator, in submission order. -/
def selectGoT (engine : Engine) (companies : List Company) (portfolio_size : ℕ)
    (risk_tolerance : ℚ) : ℕ → ℕ → Option RecommendedPortfolio × List (List String)
  | 0, _ => (none, [])
  | fuel + 1, i =>
    match windowPortfolio engine companies portfolio_size risk_tolerance i with
    | some rp => (some rp, [tickersAt companies portfolio_size i])
    | none =>
      let r := selectGoT engine companies portfolio_size risk_tolerance fuel (i + 1)
      (r.1, tickersAt companies portfolio_size i :: r.2)

/-- Instrumented selector: same result as get_portfolio_recommendation,
plus the trace of submitted ticker lists. -/
def get_portfolio_recommendationT (engine : Engine) (companies : List Company)
    (portfolio_size : ℕ) (risk_tolerance : ℚ) :
    Option RecommendedPortfolio × List (List String) :=
  selectGoT engine companies portfolio_size risk_tolerance
    (numWindows companies.length portfolio_size) 0

/-- Whether the window at offset i yields a feasible portfolio. -/
def windowSucceeds (engine : Engine) (companies : List Company)
    (portfolio_size : ℕ) (risk_tolerance : ℚ) (i : ℕ) : Bool :=
  (windowPortfolio engine companies portfolio_size risk_tolerance i).isSome

/-- Written from the spec's words for section 4.5 steps d-e: among the
surviving candidates, the one with the maximum expected return, ties
broken by first occurrence in the response order. -/
def specBestByReturn : List (List ℚ) → Option (List ℚ)
  | [] => none
  | p :: ps =>
    match specBestByReturn ps with
    | none => some p
    | some q => if key0 p < key0 q then some q else some p

/-- The computed score attached to a company, defaulting for the
pre-scoring state. -/
def scoreD (c : Company) : ℚ := c.score.getD 0

/-- The companies list is ordered descending by attached score. -/
def sortedByScoreDesc (companies : List Company) : Prop :=
  companies.Chain' (fun a b => scoreD b ≤ scoreD a)

/-- MAX_RISK_SCORE of YahooFinanceRepository. -/
def MAX_RISK_SCORE : ℚ := 40

/-- Lines 42-45 of yahoo_finance_repository.py: a sustainability
response is either absent or empty (none) or a mapping from field names
to values, where a stored value may itself be missing; a missing or
falsy (zero) value yields the default. -/
def parse_response (response : Option (String → Option ℚ)) (field : String)
    (default_value : ℚ) : ℚ :=
  match response with
  | none => default_value
  | some r =>
    match r field with
    | none => default_value
    | some v => if v = 0 then default_value else v

/-- The external Yahoo Finance data environment: per ticker, the
sustainability response (none models both a missing ticker and empty
ESG data) and the info sector field. -/
structure EsgEnv where
  esg : String → Option (String → Option ℚ)
  sectorInfo : String → Option String

/-- get_esg_score: the sustainability response for a ticker. -/
def get_esg_score (env : EsgEnv) (ticker : String) : Option (String → Option ℚ) :=
  env.esg ticker

/-- Line 98-99: controversy count with default 10. -/
def get_controversies (env : EsgEnv) (ticker : String) : ℚ :=
  parse_response (get_esg_score env ticker) "highestControversy" 10

/-- Lines 103-106: environment risk inverted by deducting from 40, with
MAX_RISK_SCORE as the parse default. -/
def get_e_score (env : EsgEnv) (ticker : String) : ℚ :=
  MAX_RISK_SCORE - parse_response (get_esg_score env ticker) "environmentScore" MAX_RISK_SCORE

/-- Lines 108-110: social risk inverted by deducting from 40. -/
def get_s_score (env : EsgEnv) (ticker : String) : ℚ :=
  MAX_RISK_SCORE - parse_response (get_esg_score env ticker) "socialScore" MAX_RISK_SCORE

/-- Lines 112-115: governance risk inverted by deducting from 40. -/
def get_g_score (env : EsgEnv) (ticker : String) : ℚ :=
  MAX_RISK_SCORE - parse_response (get_esg_score env ticker) "governanceScore" MAX_RISK_SCORE

/-- Lines 64-79: the sector, none when the ticker or its ESG data is
unavailable. -/
def get_sector (env : EsgEnv) (ticker : String) : Option String :=
  match env.esg ticker with
  | none => none
  | some _ => env.sectorInfo ticker

/-- The per-ticker lookups used by enrich_companies_data, each of which
may raise (error carries the exception message). -/
structure EsgLookup where
  e_score : String → Except String ℚ
  s_score : String → Except String ℚ
  g_score : String → Except String ℚ
  controversies : String → Except String ℚ
  sector : String → Except String (Option String)

/-- The c.update call of lines 176-182 for one company. -/
def enrichOne (repo : EsgLookup) (c : Company) : Except String Company := do
  let e ← repo.e_score c.ticker
  let s ← repo.s_score c.ticker
  let g ← repo.g_score c.ticker
  let cv ← repo.controversies c.ticker
  let sec ← repo.sector c.ticker
  return { c with e_score := some e, s_score := some s, g_score := some g,
                  controversies := some cv, sector := sec }

/-- Lines 172-185: the enrichment loop under try/except.  When any
lookup raises, the except branch prints the exception and the function
falls through, returning Python None: the embedding returns none, with
no error value of any kind in the result type. -/
def enrich_companies_data (repo : EsgLookup) (initial_companies_data : List Company) :
    Option (List Company) :=
  match initial_companies_data.mapM (enrichOne repo) with
  | Except.ok cs => some cs
  | Except.error _ => none

/-- The result of get_accepted_controversies_count: a number or the
Python float math.inf. -/
inductive ControversyCount where
  | finite (n : ℚ)
  | posInf
deriving Repr, DecidableEq

/-- Lines 188-199: the match on the survey controversy threshold. -/
def get_accepted_controversies_count (controversy_threshold : ℤ) :
    Except Err ControversyCount :=
  if controversy_threshold = 1 ∨ controversy_threshold = 2 then
    Except.ok ControversyCount.posInf
  else if controversy_threshold = 3 then Except.ok (ControversyCount.finite 3)
  else if controversy_threshold = 4 then Except.ok (ControversyCount.finite 2)
  else if controversy_threshold = 5 then Except.ok (ControversyCount.finite 1)
  else Except.error (Err.invalidInput "unexpected survey value")

/-- Lines 202-215: the weighted linear preference score.  A company
dictionary missing a required sub-score raises a KeyError, classified by
the design's taxonomy as invalid caller input. -/
def get_preference_score (company : Company) (w_e w_s w_g : ℚ) : Except Err ℚ :=
  match company.e_score, company.s_score, company.g_score with
  | some e, some s, some g => Except.ok (w_e * e + w_s * s + w_g * g)
  | _, _, _ => Except.error (Err.invalidInput "missing sub-score")

lemma insertDesc_ne_nil (p : List ℚ) (l : List (List ℚ)) : insertDesc p l ≠ [] := by
  cases l with
  | nil => simp [insertDesc]
  | cons q qs =>
    simp only [insertDesc]
    split <;> simp

lemma sortDesc_eq_nil_iff (ps : List (List ℚ)) : sortDesc ps = [] ↔ ps = [] := by
  cases ps with
  | nil => simp [sortDesc]
  | cons p ps =>
    simp only [sortDesc, List.foldr]
    constructor
    · intro h
      exact absurd h (insertDesc_ne_nil p _)
    · intro h
      exact absurd h (by simp)

lemma head_insertDesc (p : List ℚ) (l : List (List ℚ)) :
    (insertDesc p l).head? =
      match l.head? with
      | none => some p
      | some q => if key0 p < key0 q then some q else some p := by
  cases l with
  | nil => simp [insertDesc]
  | cons q qs =>
    by_cases h : key0 p < key0 q
    · simp [insertDesc, h]
    · simp [insertDesc, h]

lemma head_sortDesc (ps : List (List ℚ)) : (sortDesc ps).head? = specBestByReturn ps := by
  induction ps with
  | nil => simp [sortDesc, specBestByReturn]
  | cons p ps ih =>
    have hfold : sortDesc (p :: ps) = insertDesc p (sortDesc ps) := rfl
    rw [hfold, head_insertDesc, ih]
    rfl

lemma specBestByReturn_eq_none {ps : List (List ℚ)}
    (h : specBestByReturn ps = none) : ps = [] := by
  cases ps with
  | nil => rfl
  | cons p ps =>
    rw [specBestByReturn] at h
    rcases hps : specBestByReturn ps with _ | q <;> rw [hps] at h
    · simp at h
    · by_cases hlt : key0 p < key0 q <;> simp [hlt] at h

lemma specBestByReturn_mem {ps : List (List ℚ)} {b : List ℚ}
    (h : specBestByReturn ps = some b) : b ∈ ps := by
  induction ps with
  | nil => simp [specBestByReturn] at h
  | cons p ps ih =>
    rw [specBestByReturn] at h
    rcases hps : specBestByReturn ps with _ | q <;> rw [hps] at h
    · simp at h
      subst h
      exact List.mem_cons_self _ _
    · by_cases hlt : key0 p < key0 q <;> simp [hlt] at h <;> subst h
      · exact List.mem_cons_of_mem p (ih hps)
      · exact List.mem_cons_self _ _

lemma specBestByReturn_ge {ps : List (List ℚ)} {b q : List ℚ}
    (h : specBestByReturn ps = some b) (hq : q ∈ ps) : key0 q ≤ key0 b := by
  induction ps generalizing b with
  | nil => simp at hq
  | cons p ps ih =>
    rw [specBestByReturn] at h
    rcases hps : specBestByReturn ps with _ | r <;> rw [hps] at h
    · have hnil := specBestByReturn_eq_none hps
      subst hnil
      simp at hq h
      subst hq
      subst h
      exact le_refl _
    · rcases List.mem_cons.mp hq with hq1 | hq2
      · subst hq1
        by_cases hlt : key0 q < key0 r
        · simp [hlt] at h
          subst h
          exact le_of_lt hlt
        · simp [hlt] at h
          subst h
          exact le_refl _
      · have hr := ih hps hq2
        by_cases hlt : key0 p < key0 r
        · simp [hlt] at h
          subst h
          exact hr
        · simp [hlt] at h
          subst h
          exact le_trans hr (not_lt.mp hlt)


/-- C2: within one window, the risk filter keeps exactly the candidates
whose risk (last element) is at most risk_ceiling (the boundary is
inclusive), and the picked candidate is the one the spec describes: the
survivor with maximum expected return (first element), ties broken by
first occurrence in the collaborator's response order. -/
theorem window_risk_filter_and_best_pick (risk_ceiling : ℚ) (data : List (List ℚ)) :
    (∀ p, p ∈ data.filter (fun p => lastRisk p ≤ risk_ceiling) ↔
      p ∈ data ∧ lastRisk p ≤ risk_ceiling) ∧
    bestCandidate risk_ceiling data =
      specBestByReturn (data.filter (fun p => lastRisk p ≤ risk_ceiling)) := by
  constructor
  · intro p
    simp [List.mem_filter]
  · rw [bestCandidate, head_sortDesc]

end ESG

namespace ESG

lemma selectGoT_fst (engine : Engine) (companies : List Company) (portfolio_size : ℕ)
    (risk_tolerance : ℚ) : ∀ fuel i,
    (selectGoT engine companies portfolio_size risk_tolerance fuel i).1 =
      selectGo engine companies portfolio_size risk_tolerance fuel i := by
  intro fuel
  induction fuel with
  | zero => intro i; rfl
  | succ f ih =>
    intro i
    rcases hw : windowPortfolio engine companies portfolio_size risk_tolerance i with _ | rp
    · simp [selectGoT, selectGo, hw, ih]
    · simp [selectGoT, selectGo, hw]

lemma selectGoT_first_success (engine : Engine) (companies : List Company)
    (portfolio_size : ℕ) (risk_tolerance : ℚ) :
    ∀ (k i fuel : ℕ), k < fuel →
      (∀ j, j < k →
        windowPortfolio engine companies portfolio_size risk_tolerance (i + j) = none) →
      (windowPortfolio engine companies portfolio_size risk_tolerance (i + k)).isSome = true →
      selectGoT engine companies portfolio_size risk_tolerance fuel i =
        (windowPortfolio engine companies portfolio_size risk_tolerance (i + k),
         (List.range (k + 1)).map (fun j => tickersAt companies portfolio_size (i + j))) := by
  intro k
  induction k with
  | zero =>
    intro i fuel hk hfail hsucc
    obtain ⟨f, rfl⟩ : ∃ f, fuel = f + 1 := ⟨fuel - 1, by omega⟩
    rw [Option.isSome_iff_exists] at hsucc
    obtain ⟨rp, hw⟩ := hsucc
    simp only [Nat.add_zero] at hw ⊢
    simp [selectGoT, hw, List.range_succ]
  | succ k ih =>
    intro i fuel hk hfail hsucc
    obtain ⟨f, rfl⟩ : ∃ f, fuel = f + 1 := ⟨fuel - 1, by omega⟩
    have h0 : windowPortfolio engine companies portfolio_size risk_tolerance i = none := by
      have := hfail 0 (Nat.succ_pos k)
      simpa using this
    have hfail2 : ∀ j, j < k →
        windowPortfolio engine companies portfolio_size risk_tolerance (i + 1 + j) = none := by
      intro j hj
      have := hfail (j + 1) (by omega)
      rwa [show i + (j + 1) = i + 1 + j by omega] at this
    have hsucc2 :
        (windowPortfolio engine companies portfolio_size risk_tolerance (i + 1 + k)).isSome
          = true := by
      rwa [show i + 1 + k = i + (k + 1) by omega]
    have hrec := ih (i + 1) f (by omega) hfail2 hsucc2
    have hstep : selectGoT engine companies portfolio_size risk_tolerance (f + 1) i =
        ((selectGoT engine companies portfolio_size risk_tolerance f (i + 1)).1,
         tickersAt companies portfolio_size i ::
           (selectGoT engine companies portfolio_size risk_tolerance f (i + 1)).2) := by
      simp [selectGoT, h0]
    have hmap : (List.range (k + 1 + 1)).map
        (fun j => tickersAt companies portfolio_size (i + j)) =
        tickersAt companies portfolio_size i ::
          (List.range (k + 1)).map (fun j => tickersAt companies portfolio_size (i + 1 + j)) := by
      rw [List.range_succ_eq_map, List.map_cons, List.map_map]
      refine List.cons_eq_cons.mpr ⟨by simp, ?_⟩
      apply List.map_congr_left
      intro a _
      show tickersAt companies portfolio_size (i + (a + 1)) =
        tickersAt companies portfolio_size (i + 1 + a)
      congr 1
      omega
    rw [hstep, hrec, hmap]
    simp only [Prod.mk.injEq]
    constructor
    · congr 1
      omega
    · trivial

lemma selectGo_none (engine : Engine) (companies : List Company)
    (portfolio_size : ℕ) (risk_tolerance : ℚ) :
    ∀ (fuel i : ℕ),
      (∀ j, j < fuel →
        windowPortfolio engine companies portfolio_size risk_tolerance (i + j) = none) →
      selectGo engine companies portfolio_size risk_tolerance fuel i = none := by
  intro fuel
  induction fuel with
  | zero => intro i _; rfl
  | succ f ih =>
    intro i h
    have h0 : windowPortfolio engine companies portfolio_size risk_tolerance i = none := by
      have := h 0 (Nat.succ_pos f)
      simpa using this
    simp only [selectGo, h0]
    exact ih (i + 1) (fun j hj => by
      have := h (j + 1) (by omega)
      rwa [show i + (j + 1) = i + 1 + j by omega] at this)

lemma selectGo_some (engine : Engine) (companies : List Company)
    (portfolio_size : ℕ) (risk_tolerance : ℚ) :
    ∀ (fuel i : ℕ) (rp : RecommendedPortfolio),
      selectGo engine companies portfolio_size risk_tolerance fuel i = some rp →
      ∃ k, k < fuel ∧
        windowPortfolio engine companies portfolio_size risk_tolerance (i + k) = some rp := by
  intro fuel
  induction fuel with
  | zero => intro i rp h; simp [selectGo] at h
  | succ f ih =>
    intro i rp h
    rcases hw : windowPortfolio engine companies portfolio_size risk_tolerance i with _ | rp2
    · simp only [selectGo, hw] at h
      obtain ⟨k, hk, hwk⟩ := ih (i + 1) rp h
      exact ⟨k + 1, by omega, by rwa [show i + (k + 1) = i + 1 + k by omega]⟩
    · simp only [selectGo, hw, Option.some.injEq] at h
      exact ⟨0, Nat.succ_pos f, by simpa [hw] using congrArg some h⟩

lemma windowPortfolio_eq_none_of_fails {engine : Engine} {companies : List Company}
    {portfolio_size : ℕ} {risk_tolerance : ℚ} {i : ℕ}
    (h : windowSucceeds engine companies portfolio_size risk_tolerance i = false) :
    windowPortfolio engine companies portfolio_size risk_tolerance i = none := by
  rcases hw : windowPortfolio engine companies portfolio_size risk_tolerance i with _ | rp
  · rfl
  · rw [windowSucceeds, hw] at h
    simp at h

lemma lt_numWindows_le {len portfolio_size i : ℕ} (h : i < numWindows len portfolio_size) :
    i + portfolio_size ≤ len := by
  unfold numWindows at h
  omega

lemma windowAt_length {companies : List Company} {portfolio_size i : ℕ}
    (h : i + portfolio_size ≤ companies.length) :
    (windowAt companies portfolio_size i).length = portfolio_size := by
  simp only [windowAt, List.length_take, List.length_drop]
  omega

lemma bestCandidate_mem {risk_tolerance : ℚ} {data : List (List ℚ)} {b : List ℚ}
    (h : bestCandidate risk_tolerance data = some b) :
    b ∈ data ∧ lastRisk b ≤ risk_tolerance := by
  rw [bestCandidate, head_sortDesc] at h
  have hb := specBestByReturn_mem h
  rw [List.mem_filter] at hb
  exact ⟨hb.1, by simpa using hb.2⟩

end ESG

namespace ESG

/-- C1: for every company list ordered descending by score, every
portfolio size and every deterministic analytics collaborator, the
selector tries the contiguous windows at offsets 0 up to
len - portfolio_size in increasing order; if every window before offset
k fails and the window at offset k has a risk-compliant candidate with
strictly positive return, the result is exactly that window's portfolio,
and the collaborator is queried exactly on the windows at offsets 0
through k: no window with a larger offset is ever submitted. -/
theorem select_first_feasible_window (engine : Engine) (companies : List Company)
    (portfolio_size k : ℕ) (risk_tolerance : ℚ)
    (hsorted : sortedByScoreDesc companies)
    (hk : k < numWindows companies.length portfolio_size)
    (hfail : ∀ j, j < k →
      windowSucceeds engine companies portfolio_size risk_tolerance j = false)
    (hsucc : windowSucceeds engine companies portfolio_size risk_tolerance k = true) :
    get_portfolio_recommendationT engine companies portfolio_size risk_tolerance =
      (windowPortfolio engine companies portfolio_size risk_tolerance k,
       (List.range (k + 1)).map (tickersAt companies portfolio_size)) ∧
    get_portfolio_recommendation engine companies portfolio_size risk_tolerance =
      windowPortfolio engine companies portfolio_size risk_tolerance k := by
  have hfail2 : ∀ j, j < k →
      windowPortfolio engine companies portfolio_size risk_tolerance (0 + j) = none := by
    intro j hj
    have := windowPortfolio_eq_none_of_fails (hfail j hj)
    simpa using this
  have hsucc2 :
      (windowPortfolio engine companies portfolio_size risk_tolerance (0 + k)).isSome
        = true := by
    rw [windowSucceeds] at hsucc
    simpa using hsucc
  have hT := selectGoT_first_success engine companies portfolio_size risk_tolerance k 0
    (numWindows companies.length portfolio_size) hk hfail2 hsucc2
  constructor
  · rw [get_portfolio_recommendationT, hT]
    simp
  · have hfst := selectGoT_fst engine companies portfolio_size risk_tolerance
      (numWindows companies.length portfolio_size) 0
    rw [get_portfolio_recommendation, ← hfst, hT]
    simp

/-- Ranked companies used to exercise the selector: A, B, C, D in
strictly descending score order. -/
def companiesW1 : List Company :=
  [{ ticker := "A", name := "A", score := some 4 },
   { ticker := "B", name := "B", score := some 3 },
   { ticker := "C", name := "C", score := some 2 },
   { ticker := "D", name := "D", score := some 1 }]

/-- A collaborator that has no candidates for the window A, B and one
feasible positive-return candidate for the window B, C. -/
def engineW1 : Engine := fun ts =>
  if ts = ["B", "C"] then [[5, 1, 1, 1]] else []

/-- C1 witness: on the concrete ranked list A, B, C, D with window size
2, the window at offset 0 fails and the one at offset 1 succeeds, so the
selector answers with the offset 1 window and queries only the windows
at offsets 0 and 1: the window C, D is never submitted. -/
theorem select_first_feasible_window_witness :
    get_portfolio_recommendationT engineW1 companiesW1 2 2 =
      (windowPortfolio engineW1 companiesW1 2 2 1,
       (List.range 2).map (tickersAt companiesW1 2)) ∧
    get_portfolio_recommendation engineW1 companiesW1 2 2 =
      windowPortfolio engineW1 companiesW1 2 2 1 :=
  select_first_feasible_window engineW1 companiesW1 2 1 2
    (by norm_num [sortedByScoreDesc, companiesW1, List.chain'_cons, scoreD]) (by decide)
    (by intro j hj; interval_cases j; decide) (by decide)

/-- C3: when no window in range yields a risk-compliant candidate with
strictly positive return, the selector returns none, the NotFound value:
the embedding is a total function into an option type, so this outcome
is not an exception and carries no error value, and it is distinct from
every error constructor of the design's taxonomy. -/
theorem select_no_feasible_window_notfound (engine : Engine) (companies : List Company)
    (portfolio_size : ℕ) (risk_tolerance : ℚ)
    (h : ∀ j, j < numWindows companies.length portfolio_size →
      windowSucceeds engine companies portfolio_size risk_tolerance j = false) :
    get_portfolio_recommendation engine companies portfolio_size risk_tolerance = none := by
  rw [get_portfolio_recommendation]
  apply selectGo_none
  intro j hj
  have := windowPortfolio_eq_none_of_fails (h j hj)
  simpa using this

/-- A collaborator whose only low-risk candidate has negative return and
whose positive-return candidate violates every reasonable risk ceiling. -/
def engineW3 : Engine := fun _ => [[-1, 1, 1, 1], [3, 1, 1, 9]]

/-- Two minimal companies for the no-feasible-portfolio scenario. -/
def companiesW3 : List Company :=
  [{ ticker := "A", name := "A" }, { ticker := "B", name := "B" }]

/-- C3 witness: with two windows of size 1, the surviving candidate of
each has return at most 0, and the selector returns none. -/
theorem select_no_feasible_window_notfound_witness :
    get_portfolio_recommendation engineW3 companiesW3 1 2 = none :=
  select_no_feasible_window_notfound engineW3 companiesW3 1 2 (by decide)

end ESG

namespace ESG

/-- A single raw company for the undersized-pool scenario. -/
def companyW4 : Company := { ticker := "AAA", name := "A Corp" }

/-- A collaborator that would answer any query with a feasible
positive-return candidate record. -/
def engineW4 : Engine := fun _ => [[1, 1, 1, 0]]

/-- C4 counterexample: with one company and portfolio_size 2 the claim
announces exactly one whole-list window, guarded by a fail-fast
InvalidInputError; the code instead runs zero loop iterations: the
collaborator is never queried (the trace is empty, in particular it is
not the single whole-list window), and the run completes normally with
the NotFound value none rather than raising anything. -/
theorem select_undersized_counterexample :
    get_portfolio_recommendationT engineW4 [companyW4] 2 1 = (none, []) ∧
    (get_portfolio_recommendationT engineW4 [companyW4] 2 1).2 ≠ [[companyW4.ticker]] := by
  constructor
  · rfl
  · decide

/-- C4 amended: when portfolio_size equals the list length the selector
considers exactly one window, at offset 0, spanning the whole list; when
the list is strictly shorter than portfolio_size the loop body never
runs: no ticker list is ever submitted to the analytics collaborator and
the selector returns the NotFound value none, with no error raised. -/
theorem select_window_bounds (engine : Engine) (companies : List Company)
    (portfolio_size : ℕ) (risk_tolerance : ℚ) :
    (portfolio_size = companies.length →
      (get_portfolio_recommendationT engine companies portfolio_size risk_tolerance).2 =
        [companies.map Company.ticker]) ∧
    (companies.length < portfolio_size →
      get_portfolio_recommendationT engine companies portfolio_size risk_tolerance
        = (none, [])) := by
  constructor
  · intro hsz
    subst hsz
    have hnw : numWindows companies.length companies.length = 1 := by
      unfold numWindows
      omega
    have htick : tickersAt companies companies.length 0 = companies.map Company.ticker := by
      simp [tickersAt, windowAt]
    rw [get_portfolio_recommendationT, hnw]
    rcases hw : windowPortfolio engine companies companies.length risk_tolerance 0 with _ | rp
    · simp [selectGoT, hw, htick]
    · simp [selectGoT, hw, htick]
  · intro hsz
    have hnw : numWindows companies.length portfolio_size = 0 := by
      unfold numWindows
      omega
    rw [get_portfolio_recommendationT, hnw]
    rfl

/-- C4 witness: with the one-company list, size 1 gives exactly the
whole-list window as the only submission, and size 2 gives the empty
trace and the NotFound result. -/
theorem select_window_bounds_witness :
    (get_portfolio_recommendationT engineW4 [companyW4] 1 1).2 =
      [[companyW4].map Company.ticker] ∧
    get_portfolio_recommendationT engineW4 [companyW4] 2 1 = (none, []) :=
  ⟨(select_window_bounds engineW4 [companyW4] 1 1).1 rfl,
   (select_window_bounds engineW4 [companyW4] 2 1).2 (by decide)⟩

end ESG

namespace ESG

/-- C7: a RecommendedPortfolio produced by a successful selection, under
the collaborator contract that every candidate record has N + 2 entries
for N submitted tickers, satisfies the length invariant that tickers,
proportions and companies all have portfolio_size entries; its tickers
are exactly the tickers of the winning window's companies in the order
they were submitted to the collaborator; and its proportions, risk and
return are the middle elements, the last element and the first element
of the winning candidate record. -/
theorem portfolio_invariants (engine : Engine) (companies : List Company)
    (portfolio_size : ℕ) (risk_tolerance : ℚ) (rp : RecommendedPortfolio)
    (hrec : ∀ ts p, p ∈ engine ts → p.length = ts.length + 2)
    (hsel : get_portfolio_recommendation engine companies portfolio_size risk_tolerance
      = some rp) :
    rp.tickers.length = portfolio_size ∧
    rp.proportions.length = portfolio_size ∧
    rp.companies.length = portfolio_size ∧
    rp.tickers = rp.companies.map Company.ticker ∧
    ∃ i best, i < numWindows companies.length portfolio_size ∧
      rp.companies = windowAt companies portfolio_size i ∧
      bestCandidate risk_tolerance (engine (tickersAt companies portfolio_size i))
        = some best ∧
      0 < key0 best ∧
      rp.proportions = (best.drop 1).take portfolio_size ∧
      rp.ret = key0 best ∧ rp.risk = lastRisk best := by
  rw [get_portfolio_recommendation] at hsel
  obtain ⟨k, hk, hwk⟩ :=
    selectGo_some engine companies portfolio_size risk_tolerance _ 0 rp hsel
  simp only [Nat.zero_add] at hwk
  have hlen : k + portfolio_size ≤ companies.length := lt_numWindows_le hk
  have hwin : (windowAt companies portfolio_size k).length = portfolio_size :=
    windowAt_length hlen
  have htick : (tickersAt companies portfolio_size k).length = portfolio_size := by
    simp [tickersAt, hwin]
  rcases hb : bestCandidate risk_tolerance (engine (tickersAt companies portfolio_size k))
      with _ | best
  · simp only [windowPortfolio, hb] at hwk
    exact Option.noConfusion hwk
  · simp only [windowPortfolio, hb] at hwk
    by_cases hpos : 0 < key0 best
    · rw [if_pos hpos] at hwk
      have hbl : best.length = portfolio_size + 2 := by
        have hmem := (bestCandidate_mem hb).1
        rw [hrec _ _ hmem, htick]
      have hrp := Option.some.inj hwk
      subst hrp
      refine ⟨htick, ?_, hwin, rfl, k, best, hk, rfl, hb, hpos, rfl, rfl, rfl⟩
      simp only [List.length_take, List.length_drop, hbl]
      omega
    · rw [if_neg hpos] at hwk
      exact Option.noConfusion hwk

/-- Two enriched companies used to exercise the invariants. -/
def companiesW7 : List Company :=
  [{ ticker := "AAA", name := "A" }, { ticker := "BBB", name := "B" }]

/-- A collaborator honouring the record-shape contract: one candidate of
length N + 2 for every query of N tickers. -/
def engineW7 : Engine := fun ts => [List.replicate (ts.length + 2) 1]

/-- The portfolio the selector produces on companiesW7 with size 2. -/
def rpW7 : RecommendedPortfolio :=
  { tickers := ["AAA", "BBB"], proportions := [1, 1],
    risk := 1, ret := 1, companies := companiesW7 }

/-- C7 witness: on the concrete two-company run the produced portfolio
satisfies every invariant of the theorem. -/
theorem portfolio_invariants_witness :
    rpW7.tickers.length = 2 ∧
    rpW7.proportions.length = 2 ∧
    rpW7.companies.length = 2 ∧
    rpW7.tickers = rpW7.companies.map Company.ticker ∧
    ∃ i best, i < numWindows companiesW7.length 2 ∧
      rpW7.companies = windowAt companiesW7 2 i ∧
      bestCandidate 2 (engineW7 (tickersAt companiesW7 2 i)) = some best ∧
      0 < key0 best ∧
      rpW7.proportions = (best.drop 1).take 2 ∧
      rpW7.ret = key0 best ∧ rpW7.risk = lastRisk best :=
  portfolio_invariants engineW7 companiesW7 2 2 rpW7
    (by
      intro ts p hp
      simp only [engineW7, List.mem_singleton] at hp
      subst hp
      simp)
    (by decide)

end ESG

namespace ESG

/-- A data environment in which no ticker has any ESG response. -/
def envW5 : EsgEnv := { esg := fun _ => none, sectorInfo := fun _ => none }

/-- C5 counterexample: for a ticker with no ESG response the claim says
get_e_score returns 40; the code passes MAX_RISK_SCORE itself as the
parse default, so the getter returns 40 - 40 = 0, not 40. -/
theorem missing_data_score_counterexample :
    get_e_score envW5 "AAA" = 0 ∧ get_e_score envW5 "AAA" ≠ 40 := by
  constructor
  · norm_num [get_e_score, get_esg_score, envW5, parse_response, MAX_RISK_SCORE]
  · norm_num [get_e_score, get_esg_score, envW5, parse_response, MAX_RISK_SCORE]

/-- C5 amended: when the ESG response for a ticker is absent or empty,
the three sub-score getters each return 0 (the raw default is
MAX_RISK_SCORE = 40, inverted to 40 - 40 = 0, the worst value of the
higher-is-better scale), get_controversies returns 10, and get_sector
returns none; none of them fails. -/
theorem missing_data_defaults (env : EsgEnv) (ticker : String)
    (h : env.esg ticker = none) :
    get_e_score env ticker = 0 ∧ get_s_score env ticker = 0 ∧
    get_g_score env ticker = 0 ∧ get_controversies env ticker = 10 ∧
    get_sector env ticker = none := by
  refine ⟨?_, ?_, ?_, ?_, ?_⟩ <;>
    norm_num [get_e_score, get_s_score, get_g_score, get_controversies, get_sector,
      get_esg_score, parse_response, MAX_RISK_SCORE, h]

/-- C5 witness: the amended defaults at a concrete empty environment. -/
theorem missing_data_defaults_witness :
    get_e_score envW5 "TTT" = 0 ∧ get_s_score envW5 "TTT" = 0 ∧
    get_g_score envW5 "TTT" = 0 ∧ get_controversies envW5 "TTT" = 10 ∧
    get_sector envW5 "TTT" = none :=
  missing_data_defaults envW5 "TTT" rfl

/-- C10: when the response is present but the requested field value is
exactly 0, _parse_response returns the supplied default instead of 0
(the Python or-expression treats the zero as falsy); hence a company
whose raw environment risk score is exactly 0, the best possible raw
value, gets e-score 40 - 40 = 0, the worst possible, identical to what a
ticker with no data at all gets: a genuine raw 0 is indistinguishable
from missing data at the public getters. -/
theorem parse_zero_indistinguishable (r : String → Option ℚ) (field : String) (d : ℚ)
    (env envm : EsgEnv) (t u : String)
    (hf : r field = some 0)
    (henv : env.esg t = some r) (he : r "environmentScore" = some 0)
    (hm : envm.esg u = none) :
    parse_response (some r) field d = d ∧
    get_e_score env t = 0 ∧ get_e_score envm u = 0 ∧
    get_e_score env t = get_e_score envm u := by
  have h1 : parse_response (some r) field d = d := by
    simp [parse_response, hf]
  have h2 : get_e_score env t = 0 := by
    norm_num [get_e_score, get_esg_score, henv, parse_response, he, MAX_RISK_SCORE]
  have h3 : get_e_score envm u = 0 := by
    norm_num [get_e_score, get_esg_score, hm, parse_response, MAX_RISK_SCORE]
  exact ⟨h1, h2, h3, by rw [h2, h3]⟩

/-- A response whose every stored field is the raw value 0. -/
def rW10 : String → Option ℚ := fun _ => some 0

/-- An environment where every ticker has the all-zero response. -/
def envW10 : EsgEnv := { esg := fun _ => some rW10, sectorInfo := fun _ => none }

/-- An environment with no data at all, for the comparison. -/
def envW10m : EsgEnv := { esg := fun _ => none, sectorInfo := fun _ => none }

/-- C10 witness: the zero-valued response and the missing response give
the same getter output at concrete tickers. -/
theorem parse_zero_indistinguishable_witness :
    parse_response (some rW10) "environmentScore" 40 = 40 ∧
    get_e_score envW10 "AAA" = 0 ∧ get_e_score envW10m "BBB" = 0 ∧
    get_e_score envW10 "AAA" = get_e_score envW10m "BBB" :=
  parse_zero_indistinguishable rW10 "environmentScore" 40 envW10 envW10m "AAA" "BBB"
    rfl rfl rfl rfl

/-- A lookup collaborator whose e-score lookup raises for every ticker. -/
def repoW6 : EsgLookup :=
  { e_score := fun _ => Except.error "network failure",
    s_score := fun _ => Except.ok 0,
    g_score := fun _ => Except.ok 0,
    controversies := fun _ => Except.ok 0,
    sector := fun _ => Except.ok none }

/-- The single raw company of the failing enrichment run. -/
def companyW6 : Company := { ticker := "AAA", name := "A Corp" }

/-- C6: code-bug evidence.  The design requires a failing per-company
lookup to abort enrichment with a typed EnrichmentError; the code's
try/except instead prints the exception and returns None.  On a
one-company list whose e-score lookup raises, the per-company step
carries the error, yet enrich_companies_data returns the bare none: the
result type of the embedded code has no error constructor at all, so the
failure is not distinguishable as a typed error at the interface. -/
theorem enrich_swallows_lookup_failure :
    enrichOne repoW6 companyW6 = Except.error "network failure" ∧
    enrich_companies_data repoW6 [companyW6] = none := by
  constructor <;> rfl

/-- C8: the controversy-threshold table is exhaustive and closed: 1 and
2 map to positive infinity, 3 to 3, 4 to 2, 5 to 1, and every other
integer input fails with InvalidInputError. -/
theorem accepted_controversies_table :
    get_accepted_controversies_count 1 = Except.ok ControversyCount.posInf ∧
    get_accepted_controversies_count 2 = Except.ok ControversyCount.posInf ∧
    get_accepted_controversies_count 3 = Except.ok (ControversyCount.finite 3) ∧
    get_accepted_controversies_count 4 = Except.ok (ControversyCount.finite 2) ∧
    get_accepted_controversies_count 5 = Except.ok (ControversyCount.finite 1) ∧
    ∀ t : ℤ, t ≠ 1 → t ≠ 2 → t ≠ 3 → t ≠ 4 → t ≠ 5 →
      get_accepted_controversies_count t =
        Except.error (Err.invalidInput "unexpected survey value") := by
  refine ⟨rfl, rfl, rfl, rfl, rfl, ?_⟩
  intro t h1 h2 h3 h4 h5
  simp [get_accepted_controversies_count, h1, h2, h3, h4, h5]

/-- C8 witness: the out-of-table input 0 produces the typed error. -/
theorem accepted_controversies_table_witness :
    get_accepted_controversies_count 0 =
      Except.error (Err.invalidInput "unexpected survey value") :=
  accepted_controversies_table.2.2.2.2.2 0 (by decide) (by decide) (by decide)
    (by decide) (by decide)

/-- C9: the preference score is the exact weighted linear sum
w_e * e + w_s * s + w_g * g with no normalization when all three
sub-scores are present, and fails with InvalidInputError when any
required sub-score is absent from the company. -/
theorem preference_score_spec (company : Company) (w_e w_s w_g e s g : ℚ)
    (he : company.e_score = some e) (hs : company.s_score = some s)
    (hg : company.g_score = some g) :
    get_preference_score company w_e w_s w_g
      = Except.ok (w_e * e + w_s * s + w_g * g) ∧
    ∀ c : Company, (c.e_score = none ∨ c.s_score = none ∨ c.g_score = none) →
      get_preference_score c w_e w_s w_g =
        Except.error (Err.invalidInput "missing sub-score") := by
  constructor
  · simp [get_preference_score, he, hs, hg]
  · intro c hc
    rcases hce : c.e_score with _ | ev
    · simp [get_preference_score, hce]
    · rcases hcs : c.s_score with _ | sv
      · simp [get_preference_score, hce, hcs]
      · rcases hcg : c.g_score with _ | gv
        · simp [get_preference_score, hce, hcs, hcg]
        · simp [hce, hcs, hcg] at hc

/-- A fully enriched company with all three sub-scores equal to 10. -/
def companyW9 : Company :=
  { ticker := "TTT", name := "T", e_score := some 10, s_score := some 10,
    g_score := some 10 }

/-- C9 witness: equal unit weights on sub-scores 10, 10, 10 give 30, and
a company with no sub-scores at all fails with the typed error. -/
theorem preference_score_spec_witness :
    get_preference_score companyW9 1 1 1 = Except.ok 30 ∧
    get_preference_score { ticker := "UUU", name := "U" } 1 1 1 =
      Except.error (Err.invalidInput "missing sub-score") := by
  have h := preference_score_spec companyW9 1 1 1 10 10 10 rfl rfl rfl
  exact ⟨by rw [h.1]; norm_num, h.2 { ticker := "UUU", name := "U" } (Or.inl rfl)⟩

end ESG
